import Mathlib

/-!
Verification of the OTP lifecycle manager of the `frontback` repository,
shallowly embedded from `backend/api/serializers.py`.

The database of `EmailOTP` rows is a `List EmailOTP`; each row carries its
primary key `id`.  Wall-clock time is a `Nat` (seconds); the expiry window
(`TTL`) is a `Nat` parameter, since its concrete value lives in configuration
outside this repository.  Django query idioms are embedded as follows:
`filter(...)` is `List.filter`, `__iexact` is case-insensitive string equality
(both sides lower-cased), `order_by("-created_at").first()` picks a row with
maximal `created_at`, `save(update_fields=["attempts"])` rewrites only the
`attempts` field of the row with the given primary key, and `delete()` removes
the row with the given primary key.
-/

/-- `EmailOTP.purpose` values; the source uses `EmailOTP.PURPOSE_REGISTRATION`,
and at least one other purpose may exist, represented by `other`. -/
inductive Purpose where
  | registration
  | other
deriving Repr, DecidableEq, BEq

/-- One `EmailOTP` database row.  `id` is the primary key. -/
structure EmailOTP where
  id : Nat
  email : String
  code : String
  token : String
  purpose : Purpose
  created_at : Nat
  attempts : Nat
  is_verified : Bool
deriving Repr, DecidableEq

/-- Modelled from the spec: `EmailOTP.is_expired` is a derived property defined
in `models.py`, which is not under `src/`; per the spec it is "true when current
time exceeds `created_at` plus a fixed validity window". -/
def EmailOTP.is_expired (r : EmailOTP) (now ttl : Nat) : Bool :=
  decide (r.created_at + ttl < now)

deriving instance DecidableEq for Except

/-- Python `str.lower` (ASCII case folding), computed over the character list
so that it reduces in the kernel. -/
def pyLower (s : String) : String := String.mk (s.data.map Char.toLower)

/-- Python `str.strip`: remove leading and trailing whitespace. -/
def pyStrip (s : String) : String :=
  String.mk (((s.data.dropWhile Char.isWhitespace).reverse.dropWhile Char.isWhitespace).reverse)

/-- `value.strip().lower()`, the email normalization used throughout the file. -/
def normEmail (s : String) : String := pyLower (pyStrip s)

/-- Django `__iexact`: case-insensitive string equality. -/
def iexact (a b : String) : Bool := pyLower a == pyLower b

/-- `order_by("-created_at").first()`: a row with maximal `created_at`
(the earlier row wins ties, which Django leaves unspecified). -/
def mostRecent : List EmailOTP → Option EmailOTP
  | [] => none
  | r :: rs =>
    match mostRecent rs with
    | none => some r
    | some b => if b.created_at ≤ r.created_at then some r else some b

/-- The row lookup of `VerifyOTPSerializer.validate` (line 272):
`EmailOTP.objects.filter(email__iexact=email, purpose=PURPOSE_REGISTRATION)
.order_by("-created_at").first()`. -/
def verifyLookup (store : List EmailOTP) (email : String) : Option EmailOTP :=
  mostRecent (store.filter (fun r => iexact r.email email && r.purpose == Purpose.registration))

/-- `otp.save(update_fields=["attempts"])`: persist only the `attempts` field
of the row with primary key `i`. -/
def saveAttempts (store : List EmailOTP) (i a : Nat) : List EmailOTP :=
  store.map (fun s => if s.id == i then { s with attempts := a } else s)

/-- The four failure signals of `VerifyOTPSerializer.validate`. -/
inductive VerifyError where
  | NotFound
  | Expired
  | AttemptsExceeded
  | CodeMismatch
deriving Repr, DecidableEq

/-- `VerifyOTPSerializer.validate` (serializers.py lines 269-286).  Returns the
database after the call together with the outcome: the validated row
(`attrs["otp"]`) on success, a `VerifyError` on failure. -/
def VerifyOTPSerializer.validate (store : List EmailOTP) (now ttl : Nat)
    (e c : String) : List EmailOTP × Except VerifyError EmailOTP :=
  match verifyLookup store (normEmail e) with
  | none => (store, Except.error VerifyError.NotFound)
  | some otp =>
    if otp.is_expired now ttl then (store, Except.error VerifyError.Expired)
    else if 5 ≤ otp.attempts then (store, Except.error VerifyError.AttemptsExceeded)
    else if otp.code ≠ pyStrip c then
      (saveAttempts store otp.id (otp.attempts + 1), Except.error VerifyError.CodeMismatch)
    else (store, Except.ok otp)

/-- Modelled from the spec: the view completing VerifyOTP is not under `src/`;
per the spec, once all four preconditions pass the caller marks the validated
row `is_verified = true` and persists it. -/
def markVerified (store : List EmailOTP) (i : Nat) : List EmailOTP :=
  store.map (fun s => if s.id == i then { s with is_verified := true } else s)

/-- The full VerifyOTP operation: `VerifyOTPSerializer.validate`, then (on
success) the spec-modelled marking of `is_verified`. -/
def verifyOTP (store : List EmailOTP) (now ttl : Nat) (e c : String) :
    List EmailOTP × Except VerifyError EmailOTP :=
  match VerifyOTPSerializer.validate store now ttl e c with
  | (st, Except.ok otp) => (markVerified st otp.id, Except.ok { otp with is_verified := true })
  | (st, Except.error err) => (st, Except.error err)

/-- The `code` field of `VerifyOTPSerializer` is declared
`CharField(min_length=6, max_length=6)` (line 267).  A DRF `CharField` has
`trim_whitespace=True` by default: `to_internal_value` strips surrounding
whitespace, and the length validators then run on the stripped value. -/
def codeField (raw : String) : Option String :=
  if (pyStrip raw).length = 6 then some (pyStrip raw) else none

/-- Whether a raw submitted code string is accepted end to end: it passes the
`code` field's processing and `VerifyOTPSerializer.validate` succeeds. -/
def codeAccepted (store : List EmailOTP) (now ttl : Nat) (e raw : String) : Bool :=
  match codeField raw with
  | none => false
  | some v =>
    match (VerifyOTPSerializer.validate store now ttl e v).2 with
    | Except.ok _ => true
    | Except.error _ => false

/-- Failure signals of `RegisterSerializer.validate` (lines 62-78). -/
inductive RegError where
  | EmailRequired
  | InvalidOrExpiredToken
deriving Repr, DecidableEq

/-- The row lookup of `RegisterSerializer.validate` (lines 69-73):
`EmailOTP.objects.filter(token=token, purpose=PURPOSE_REGISTRATION,
email__iexact=email).order_by("-created_at").first()`. -/
def registerLookup (store : List EmailOTP) (tok email : String) : Option EmailOTP :=
  mostRecent (store.filter (fun r =>
    r.token == tok && r.purpose == Purpose.registration && iexact r.email email))

/-- `RegisterSerializer.validate` (lines 62-78).  The `email` value it sees was
normalized by `validate_email` (`value.strip().lower()`, line 57); line 66
rejects a missing/blank email, line 74 rejects a missing, unverified or expired
row with the single `otp_token` error. -/
def RegisterSerializer.validate (store : List EmailOTP) (now ttl : Nat)
    (e tok : String) : Except RegError EmailOTP :=
  if normEmail e = "" then Except.error RegError.EmailRequired
  else
    match registerLookup store tok (normEmail e) with
    | none => Except.error RegError.InvalidOrExpiredToken
    | some otp =>
      if !otp.is_verified || otp.is_expired now ttl then
        Except.error RegError.InvalidOrExpiredToken
      else Except.ok otp

/-- The full FinalizeRegistration operation: `RegisterSerializer.validate`,
then `RegisterSerializer.create`, whose only effect on the OTP table is
`otp_instance.delete()` (line 106).  Account/profile creation acts on other
tables and is out of scope.  Returns the OTP table after the call and the
consumed row on success. -/
def finalizeRegistration (store : List EmailOTP) (now ttl : Nat)
    (e tok : String) : List EmailOTP × Except RegError EmailOTP :=
  match RegisterSerializer.validate store now ttl e tok with
  | Except.error err => (store, Except.error err)
  | Except.ok otp => (store.filter (fun s => !(s.id == otp.id)), Except.ok otp)

/-- A fresh primary key for a newly inserted row. -/
def freshId (store : List EmailOTP) : Nat :=
  1 + store.foldl (fun m r => max m r.id) 0

/-- Modelled from the spec: OTP issuance happens in the view, which is not
under `src/`.  Per the spec, IssueOTP creates a new record with a freshly
generated `code` and `token`, `attempts = 0`, unverified, stamped with the
current time; `SendOTPSerializer.validate_email` (lines 258-262) normalizes
the email with `value.strip().lower()`. -/
def issuedRecord (store : List EmailOTP) (now : Nat) (e code tok : String) : EmailOTP :=
  { id := freshId store, email := normEmail e, code := code, token := tok,
    purpose := Purpose.registration, created_at := now, attempts := 0, is_verified := false }

/-- Modelled from the spec: IssueOTP appends the new record and returns the
token to the caller. -/
def issueOTP (store : List EmailOTP) (now : Nat) (e code tok : String) :
    List EmailOTP × String :=
  (store ++ [issuedRecord store now e code tok], tok)

/-- `UpcomingSessionSerializer.validate_start_time` (lines 249-252):
`if value < timezone.now() - timezone.timedelta(minutes=1): raise ...`.
Times are integer seconds; `timedelta(minutes=1)` is 60 seconds. -/
def UpcomingSessionSerializer.validate_start_time (now value : Int) : Except String Int :=
  if value < now - 60 then Except.error "Start time must be in the future."
  else Except.ok value

/-! ## Concrete records used by witnesses and counterexamples -/

/-- A freshly issued record: code `123456`, zero attempts, unverified. -/
def recFresh : EmailOTP :=
  { id := 1, email := "a@x.com", code := "123456", token := "tok1",
    purpose := Purpose.registration, created_at := 0, attempts := 0, is_verified := false }

/-- `recFresh` after five failed attempts. -/
def recLocked : EmailOTP := { recFresh with attempts := 5 }

/-- `recFresh` after a successful verification. -/
def recVerified : EmailOTP := { recFresh with is_verified := true }

/-! ## Helper lemmas about the lookup -/

theorem mostRecent_eq_nil {l : List EmailOTP} (h : mostRecent l = none) : l = [] := by
  cases l with
  | nil => rfl
  | cons a tl =>
    cases htl : mostRecent tl with
    | none => simp [mostRecent, htl] at h
    | some b =>
      simp only [mostRecent, htl] at h
      by_cases hc : b.created_at ≤ a.created_at <;> simp [hc] at h

theorem mostRecent_mem : ∀ {l : List EmailOTP} {r : EmailOTP}, mostRecent l = some r → r ∈ l := by
  intro l
  induction l with
  | nil => intro r h; simp [mostRecent] at h
  | cons a tl ih =>
    intro r h
    cases htl : mostRecent tl with
    | none =>
      simp only [mostRecent, htl] at h
      injection h with h; subst h
      exact List.mem_cons_self a tl
    | some b =>
      simp only [mostRecent, htl] at h
      by_cases hc : b.created_at ≤ a.created_at
      · rw [if_pos hc] at h; injection h with h; subst h
        exact List.mem_cons_self a tl
      · rw [if_neg hc] at h; injection h with h; subst h
        exact List.mem_cons_of_mem a (ih htl)

theorem mostRecent_max : ∀ {l : List EmailOTP} {r : EmailOTP}, mostRecent l = some r →
    ∀ x ∈ l, x.created_at ≤ r.created_at := by
  intro l
  induction l with
  | nil => intro r h x hx; simp at hx
  | cons a tl ih =>
    intro r h x hx
    cases htl : mostRecent tl with
    | none =>
      simp only [mostRecent, htl] at h
      injection h with h; subst h
      have htlnil : tl = [] := mostRecent_eq_nil htl
      subst htlnil
      have hxa : x = a := List.mem_singleton.mp hx
      rw [hxa]
    | some b =>
      simp only [mostRecent, htl] at h
      rcases List.mem_cons.mp hx with hxa | hxtl
      · rw [hxa]
        by_cases hc : b.created_at ≤ a.created_at
        · rw [if_pos hc] at h; injection h with h; subst h; exact Nat.le_refl _
        · rw [if_neg hc] at h; injection h with h; subst h; omega
      · by_cases hc : b.created_at ≤ a.created_at
        · rw [if_pos hc] at h; injection h with h; subst h
          exact Nat.le_trans (ih htl x hxtl) hc
        · rw [if_neg hc] at h; injection h with h; subst h
          exact ih htl x hxtl

theorem mostRecent_append_newest : ∀ {l : List EmailOTP} {n : EmailOTP},
    (∀ x ∈ l, x.created_at < n.created_at) → mostRecent (l ++ [n]) = some n := by
  intro l
  induction l with
  | nil => intro n _; simp [mostRecent]
  | cons a tl ih =>
    intro n h
    have htl : mostRecent (tl ++ [n]) = some n :=
      ih (fun x hx => h x (List.mem_cons_of_mem a hx))
    have ha : a.created_at < n.created_at := h a (List.mem_cons_self a tl)
    have hne : ¬ n.created_at ≤ a.created_at := by omega
    simp only [List.cons_append, mostRecent, List.append_eq, htl, if_neg hne]

theorem verifyLookup_mem {store : List EmailOTP} {q : String} {r : EmailOTP}
    (h : verifyLookup store q = some r) : r ∈ store :=
  List.mem_of_mem_filter (mostRecent_mem h)

/-- Exhaustive case analysis of the VerifyOTP operation: exactly one of the
five branches of `VerifyOTPSerializer.validate` fires. -/
theorem verifyOTP_cases (store : List EmailOTP) (now ttl : Nat) (e c : String) :
    (verifyLookup store (normEmail e) = none ∧
      verifyOTP store now ttl e c = (store, Except.error VerifyError.NotFound)) ∨
    ∃ r, verifyLookup store (normEmail e) = some r ∧
      ((r.is_expired now ttl = true ∧
          verifyOTP store now ttl e c = (store, Except.error VerifyError.Expired)) ∨
       (r.is_expired now ttl = false ∧ 5 ≤ r.attempts ∧
          verifyOTP store now ttl e c = (store, Except.error VerifyError.AttemptsExceeded)) ∨
       (r.is_expired now ttl = false ∧ r.attempts < 5 ∧ r.code ≠ pyStrip c ∧
          verifyOTP store now ttl e c
            = (saveAttempts store r.id (r.attempts + 1), Except.error VerifyError.CodeMismatch)) ∨
       (r.is_expired now ttl = false ∧ r.attempts < 5 ∧ r.code = pyStrip c ∧
          verifyOTP store now ttl e c
            = (markVerified store r.id, Except.ok { r with is_verified := true }))) := by
  cases hlk : verifyLookup store (normEmail e) with
  | none =>
    exact Or.inl ⟨rfl, by simp [verifyOTP, VerifyOTPSerializer.validate, hlk]⟩
  | some r =>
    refine Or.inr ⟨r, rfl, ?_⟩
    by_cases hexp : r.is_expired now ttl = true
    · exact Or.inl ⟨hexp, by simp [verifyOTP, VerifyOTPSerializer.validate, hlk, hexp]⟩
    · have hexp' : r.is_expired now ttl = false := by simpa using hexp
      by_cases hatt : 5 ≤ r.attempts
      · exact Or.inr (Or.inl ⟨hexp', hatt,
          by simp [verifyOTP, VerifyOTPSerializer.validate, hlk, hexp', hatt]⟩)
      · have hatt' : r.attempts < 5 := by omega
        by_cases hcode : r.code = pyStrip c
        · refine Or.inr (Or.inr (Or.inr ⟨hexp', hatt', hcode, ?_⟩))
          simp [verifyOTP, VerifyOTPSerializer.validate, hlk, hexp', hatt, hcode]
        · refine Or.inr (Or.inr (Or.inl ⟨hexp', hatt', hcode, ?_⟩))
          simp [verifyOTP, VerifyOTPSerializer.validate, hlk, hexp', hatt, hcode]

/-! ## Claims -/

/-- C1: `VerifyOTPSerializer.validate` checks its four preconditions in the
fixed order NotFound, then Expired, then AttemptsExceeded, then CodeMismatch,
each failing fast with its own distinct error.  The Expired conjunct carries no
hypothesis on `attempts`, so a record that is both expired and at the attempts
limit reports `Expired` — the ordering is observable via the returned error. -/
theorem c1_precondition_order (store : List EmailOTP) (now ttl : Nat) (e c : String) :
    (verifyLookup store (normEmail e) = none →
      (verifyOTP store now ttl e c).2 = Except.error VerifyError.NotFound)
  ∧ (∀ r, verifyLookup store (normEmail e) = some r → r.is_expired now ttl = true →
      (verifyOTP store now ttl e c).2 = Except.error VerifyError.Expired)
  ∧ (∀ r, verifyLookup store (normEmail e) = some r → r.is_expired now ttl = false →
      5 ≤ r.attempts →
      (verifyOTP store now ttl e c).2 = Except.error VerifyError.AttemptsExceeded)
  ∧ (∀ r, verifyLookup store (normEmail e) = some r → r.is_expired now ttl = false →
      r.attempts < 5 → r.code ≠ pyStrip c →
      (verifyOTP store now ttl e c).2 = Except.error VerifyError.CodeMismatch) := by
  refine ⟨?_, ?_, ?_, ?_⟩
  · intro h
    simp [verifyOTP, VerifyOTPSerializer.validate, h]
  · intro r hr hexp
    simp [verifyOTP, VerifyOTPSerializer.validate, hr, hexp]
  · intro r hr hexp hatt
    simp [verifyOTP, VerifyOTPSerializer.validate, hr, hexp, hatt]
  · intro r hr hexp hatt hcode
    have h5 : ¬ 5 ≤ r.attempts := by omega
    simp [verifyOTP, VerifyOTPSerializer.validate, hr, hexp, h5, hcode]

/-- C1 witness: a concrete record that is both expired and at the attempts
limit (5) reports `Expired`, by the second conjunct of `c1_precondition_order`. -/
theorem c1_precondition_order_witness :
    recLocked.is_expired 100 10 = true ∧ 5 ≤ recLocked.attempts ∧
    (verifyOTP [recLocked] 100 10 "a@x.com" "123456").2 = Except.error VerifyError.Expired :=
  ⟨by decide, by decide,
    (c1_precondition_order [recLocked] 100 10 "a@x.com" "123456").2.1 recLocked
      (by decide) (by decide)⟩

/-- C2: when all four preconditions pass (record found, not expired, fewer
than 5 attempts, stripped submitted code equal to the stored code), VerifyOTP
marks the record `is_verified = true` in the database and returns success with
a reference to that record. -/
theorem c2_success_marks_verified (store : List EmailOTP) (now ttl : Nat) (e c : String)
    (r : EmailOTP) (hfind : verifyLookup store (normEmail e) = some r)
    (hexp : r.is_expired now ttl = false) (hatt : r.attempts < 5)
    (hcode : r.code = pyStrip c) :
    (verifyOTP store now ttl e c).2 = Except.ok { r with is_verified := true }
  ∧ (verifyOTP store now ttl e c).1 = markVerified store r.id
  ∧ { r with is_verified := true } ∈ (verifyOTP store now ttl e c).1 := by
  have h5 : ¬ 5 ≤ r.attempts := by omega
  have hstep : verifyOTP store now ttl e c
      = (markVerified store r.id, Except.ok { r with is_verified := true }) := by
    simp [verifyOTP, VerifyOTPSerializer.validate, hfind, hexp, h5, hcode]
  refine ⟨by rw [hstep], by rw [hstep], ?_⟩
  rw [hstep]
  have hr : r ∈ store := verifyLookup_mem hfind
  simp only [markVerified]
  have hfr : (fun s => if s.id == r.id then { s with is_verified := true } else s) r
      = { r with is_verified := true } := by simp
  rw [← hfr]
  exact List.mem_map_of_mem _ hr

/-- C2 witness: the concrete fresh record is verified by its own code. -/
theorem c2_success_marks_verified_witness :
    (verifyOTP [recFresh] 5 10 "a@x.com" "123456").2
        = Except.ok { recFresh with is_verified := true }
  ∧ (verifyOTP [recFresh] 5 10 "a@x.com" "123456").1 = markVerified [recFresh] recFresh.id
  ∧ { recFresh with is_verified := true } ∈ (verifyOTP [recFresh] 5 10 "a@x.com" "123456").1 :=
  c2_success_marks_verified [recFresh] 5 10 "a@x.com" "123456" recFresh
    (by decide) (by decide) (by decide) (by decide)

/-- C3 counterexample: the submitted code is NOT compared verbatim.  The DRF
`CharField` strips surrounding whitespace before the length check and
`validate` strips again (line 271), so the submissions `"123456"` and
`" 123456 "` — two distinct strings differing only in surrounding whitespace —
are both accepted for the same stored code `"123456"`. -/
theorem c3_verbatim_comparison_counterexample :
    codeAccepted [recFresh] 5 10 "a@x.com" "123456" = true
  ∧ codeAccepted [recFresh] 5 10 "a@x.com" " 123456 " = true
  ∧ ("123456" : String) ≠ " 123456 "
  ∧ pyStrip " 123456 " = pyStrip "123456" := by decide

/-- C3 amended: acceptance of a submitted code depends only on its
whitespace-stripped value (so whitespace variants of an accepted submission are
also accepted), and an accepted submission strips exactly — case-sensitively,
with no other normalization — to the stored code. -/
theorem c3_trimmed_exact_comparison (store : List EmailOTP) (now ttl : Nat) (e : String) :
    (∀ raw1 raw2, pyStrip raw1 = pyStrip raw2 →
        codeAccepted store now ttl e raw1 = codeAccepted store now ttl e raw2)
  ∧ (∀ raw r, verifyLookup store (normEmail e) = some r →
        codeAccepted store now ttl e raw = true → r.code = pyStrip (pyStrip raw)) := by
  constructor
  · intro raw1 raw2 h
    simp only [codeAccepted, codeField]
    rw [h]
  · intro raw r hr hacc
    by_cases h6 : (pyStrip raw).length = 6
    · simp only [codeAccepted, codeField, if_pos h6] at hacc
      by_cases hexp : r.is_expired now ttl = true
      · simp [VerifyOTPSerializer.validate, hr, hexp] at hacc
      · have hexp2 : r.is_expired now ttl = false := by simpa using hexp
        by_cases hatt : 5 ≤ r.attempts
        · simp [VerifyOTPSerializer.validate, hr, hexp2, hatt] at hacc
        · by_cases hcode : r.code = pyStrip (pyStrip raw)
          · exact hcode
          · simp [VerifyOTPSerializer.validate, hr, hexp2, hatt, hcode] at hacc
    · simp [codeAccepted, codeField, if_neg h6] at hacc

/-- C3 amended witness: whitespace variants of the correct code get the same
verdict, and the accepted submission strips to the stored code. -/
theorem c3_trimmed_exact_comparison_witness :
    codeAccepted [recFresh] 5 10 "a@x.com" "123456 " = codeAccepted [recFresh] 5 10 "a@x.com" " 123456"
  ∧ recFresh.code = pyStrip (pyStrip " 123456 ") :=
  ⟨(c3_trimmed_exact_comparison [recFresh] 5 10 "a@x.com").1 "123456 " " 123456" (by decide),
   (c3_trimmed_exact_comparison [recFresh] 5 10 "a@x.com").2 " 123456 " recFresh
     (by decide) (by decide)⟩

/-- C4: the attempts counter is incremented and persisted exactly on the
CodeMismatch branch (`update_fields=["attempts"]`, line 282); on the NotFound,
Expired and AttemptsExceeded branches the database is left untouched. -/
theorem c4_attempts_persisted_only_on_mismatch (store : List EmailOTP) (now ttl : Nat)
    (e c : String) :
    ((verifyOTP store now ttl e c).2 = Except.error VerifyError.CodeMismatch →
      ∃ r, verifyLookup store (normEmail e) = some r ∧
        (verifyOTP store now ttl e c).1 = saveAttempts store r.id (r.attempts + 1))
  ∧ (∀ err, err ≠ VerifyError.CodeMismatch →
      (verifyOTP store now ttl e c).2 = Except.error err →
      (verifyOTP store now ttl e c).1 = store) := by
  constructor
  · intro hres
    rcases verifyOTP_cases store now ttl e c with ⟨_, h2⟩ | ⟨r, hr, hcase⟩
    · rw [h2] at hres; simp at hres
    · rcases hcase with ⟨_, h2⟩ | ⟨_, _, h2⟩ | ⟨_, _, _, h2⟩ | ⟨_, _, _, h2⟩
      · rw [h2] at hres; simp at hres
      · rw [h2] at hres; simp at hres
      · exact ⟨r, hr, by rw [h2]⟩
      · rw [h2] at hres; simp at hres
  · intro err hne hres
    rcases verifyOTP_cases store now ttl e c with ⟨_, h2⟩ | ⟨r, hr, hcase⟩
    · rw [h2]
    · rcases hcase with ⟨_, h2⟩ | ⟨_, _, h2⟩ | ⟨_, _, _, h2⟩ | ⟨_, _, _, h2⟩
      · rw [h2]
      · rw [h2]
      · rw [h2] at hres
        simp only [Prod.snd] at hres
        injection hres with hres
        exact absurd hres.symm hne
      · rw [h2] at hres; simp at hres

/-- C4 witness: a concrete mismatch persists `attempts + 1`, and a concrete
expired failure leaves the database unchanged. -/
theorem c4_attempts_persisted_only_on_mismatch_witness :
    (∃ r, verifyLookup [recFresh] (normEmail "a@x.com") = some r ∧
      (verifyOTP [recFresh] 5 10 "a@x.com" "000000").1 = saveAttempts [recFresh] r.id (r.attempts + 1))
  ∧ (verifyOTP [recFresh] 100 10 "a@x.com" "123456").1 = [recFresh] :=
  ⟨(c4_attempts_persisted_only_on_mismatch [recFresh] 5 10 "a@x.com" "000000").1 (by decide),
   (c4_attempts_persisted_only_on_mismatch [recFresh] 100 10 "a@x.com" "123456").2
     VerifyError.Expired (by decide) (by decide)⟩

/-- C5 counterexample: the claim says a record whose attempts counter reached 5
makes every VerifyOTP call fail with `AttemptsExceeded`, even with the correct
code — but a record that is also expired fails with `Expired` instead, because
the expiry check runs first (line 276 before line 278). -/
theorem c5_lockout_counterexample :
    verifyLookup [recLocked] (normEmail "a@x.com") = some recLocked
  ∧ 5 ≤ recLocked.attempts
  ∧ recLocked.code = pyStrip "123456"
  ∧ (verifyOTP [recLocked] 100 10 "a@x.com" "123456").2 ≠ Except.error VerifyError.AttemptsExceeded := by
  decide

/-- C5 amended: once a record's attempts counter has reached 5, a VerifyOTP
call resolving to it fails with `AttemptsExceeded` provided the record is not
expired (if it is also expired, `Expired` is reported, per the check order);
in every case the call never succeeds, even with the correct code. -/
theorem c5_lockout_dominates (store : List EmailOTP) (now ttl : Nat) (e c : String)
    (r : EmailOTP) (hfind : verifyLookup store (normEmail e) = some r)
    (hatt : 5 ≤ r.attempts) :
    (r.is_expired now ttl = false →
      (verifyOTP store now ttl e c).2 = Except.error VerifyError.AttemptsExceeded)
  ∧ (∀ x, (verifyOTP store now ttl e c).2 ≠ Except.ok x) := by
  rcases verifyOTP_cases store now ttl e c with ⟨h1, _⟩ | ⟨r2, hr2, hcase⟩
  · rw [hfind] at h1; exact absurd h1 (by simp)
  · rw [hfind] at hr2
    injection hr2 with hr2
    subst hr2
    rcases hcase with ⟨hx, h2⟩ | ⟨_, _, h2⟩ | ⟨_, hlt, _, h2⟩ | ⟨_, hlt, _, h2⟩
    · constructor
      · intro hexp; rw [hexp] at hx; exact absurd hx (by simp)
      · intro x; rw [h2]; simp
    · constructor
      · intro _; rw [h2]
      · intro x; rw [h2]; simp
    · omega
    · omega

/-- C5 amended witness: a locked, unexpired record rejects its own correct code
with `AttemptsExceeded`. -/
theorem c5_lockout_dominates_witness :
    (verifyOTP [recLocked] 5 10 "a@x.com" "123456").2 = Except.error VerifyError.AttemptsExceeded :=
  (c5_lockout_dominates [recLocked] 5 10 "a@x.com" "123456" recLocked (by decide) (by decide)).1
    (by decide)

/-- C6 counterexample: `VerifyOTPSerializer.validate` never checks
`is_verified`, so after a successful verification (record verified, attempts
still 0) a further call with a wrong code still increments and persists the
attempts counter of the already-verified record: 0 becomes 1. -/
theorem c6_increment_after_verified_counterexample :
    (verifyOTP [recFresh] 5 50 "a@x.com" "123456").1 = [recVerified]
  ∧ recVerified.is_verified = true
  ∧ recVerified.attempts = 0
  ∧ (verifyOTP [recVerified] 6 50 "a@x.com" "000000").1
      = [{ recVerified with attempts := 1 }] := by decide

/-- C6 amended: across the manager's operations, the attempts counter of a row
changes only on VerifyOTP's code-mismatch branch (where it grows by exactly 1),
FinalizeRegistration only ever deletes rows, and IssueOTP only adds a new row —
so attempts is never incremented after a record's deletion; but VerifyOTP does
not consult `is_verified`, so a verified record's counter can still grow. -/
theorem c6_attempts_frame (store : List EmailOTP) (now ttl : Nat) (e c : String)
    (hids : ∀ r1 ∈ store, ∀ r2 ∈ store, r1.id = r2.id → r1 = r2) :
    (∀ r1 ∈ (verifyOTP store now ttl e c).1, ∃ r0 ∈ store, r0.id = r1.id ∧
        (r1.attempts = r0.attempts ∨
          ((verifyOTP store now ttl e c).2 = Except.error VerifyError.CodeMismatch ∧
            r1.attempts = r0.attempts + 1)))
  ∧ (∀ tok, ∀ r1 ∈ (finalizeRegistration store now ttl e tok).1, r1 ∈ store)
  ∧ (∀ code tok, ∀ r0 ∈ store, r0 ∈ (issueOTP store now e code tok).1) := by
  refine ⟨?_, ?_, ?_⟩
  · intro r1 h1
    rcases verifyOTP_cases store now ttl e c with ⟨_, h2⟩ | ⟨r, hr, hcase⟩
    · rw [h2] at h1
      exact ⟨r1, h1, rfl, Or.inl rfl⟩
    · rcases hcase with ⟨_, h2⟩ | ⟨_, _, h2⟩ | ⟨_, _, _, h2⟩ | ⟨_, _, _, h2⟩
      · rw [h2] at h1; exact ⟨r1, h1, rfl, Or.inl rfl⟩
      · rw [h2] at h1; exact ⟨r1, h1, rfl, Or.inl rfl⟩
      · rw [h2] at h1
        simp only [saveAttempts] at h1
        rcases List.mem_map.mp h1 with ⟨r0, h0mem, h0eq⟩
        by_cases hid : r0.id == r.id
        · have hideq : r0.id = r.id := by simpa using hid
          have hr0r : r0 = r := hids r0 h0mem r (verifyLookup_mem hr) hideq
          rw [if_pos hid] at h0eq
          refine ⟨r0, h0mem, ?_, Or.inr ⟨by rw [h2], ?_⟩⟩
          · rw [← h0eq]
          · rw [← h0eq, hr0r]
        · rw [if_neg hid] at h0eq
          exact ⟨r0, h0mem, by rw [h0eq], Or.inl (by rw [h0eq])⟩
      · rw [h2] at h1
        simp only [markVerified] at h1
        rcases List.mem_map.mp h1 with ⟨r0, h0mem, h0eq⟩
        by_cases hid : r0.id == r.id
        · rw [if_pos hid] at h0eq
          exact ⟨r0, h0mem, by rw [← h0eq], Or.inl (by rw [← h0eq])⟩
        · rw [if_neg hid] at h0eq
          exact ⟨r0, h0mem, by rw [h0eq], Or.inl (by rw [h0eq])⟩
  · intro tok r1 h1
    unfold finalizeRegistration at h1
    cases hv : RegisterSerializer.validate store now ttl e tok with
    | error err => rw [hv] at h1; simpa using h1
    | ok otp =>
      rw [hv] at h1
      exact List.mem_of_mem_filter h1
  · intro code tok r0 h0
    simp only [issueOTP]
    exact List.mem_append_left _ h0

/-- C6 amended witness: the incremented record of the concrete mismatch trace
descends from the stored record with the same id and attempts grown by 1. -/
theorem c6_attempts_frame_witness :
    ∃ r0 ∈ [recFresh], r0.id = ({ recFresh with attempts := 1 } : EmailOTP).id ∧
      (({ recFresh with attempts := 1 } : EmailOTP).attempts = r0.attempts ∨
        ((verifyOTP [recFresh] 5 10 "a@x.com" "000000").2 = Except.error VerifyError.CodeMismatch ∧
          ({ recFresh with attempts := 1 } : EmailOTP).attempts = r0.attempts + 1)) :=
  (c6_attempts_frame [recFresh] 5 10 "a@x.com" "000000" (by decide)).1
    { recFresh with attempts := 1 } (by decide)

/-! ## Helper lemmas about registration finalization -/

theorem registerValidate_ok (store : List EmailOTP) (now ttl : Nat) (e tok : String)
    (r : EmailOTP) :
    RegisterSerializer.validate store now ttl e tok = Except.ok r ↔
      (normEmail e ≠ "" ∧ registerLookup store tok (normEmail e) = some r ∧
        r.is_verified = true ∧ r.is_expired now ttl = false) := by
  unfold RegisterSerializer.validate
  by_cases hne : normEmail e = ""
  · simp [hne]
  · rw [if_neg hne]
    cases hlk : registerLookup store tok (normEmail e) with
    | none =>
      constructor
      · intro h; exact absurd h (by simp)
      · rintro ⟨_, hsome, _, _⟩; exact absurd hsome (by simp)
    | some otp =>
      dsimp only
      by_cases hcond : (!otp.is_verified || otp.is_expired now ttl) = true
      · rw [if_pos hcond]
        constructor
        · intro h; exact absurd h (by simp)
        · rintro ⟨_, hsome, hv, hx⟩
          injection hsome with hsome
          subst hsome
          rw [hv, hx] at hcond
          simp at hcond
      · rw [if_neg hcond]
        have hv : otp.is_verified = true := by
          cases hvv : otp.is_verified
          · exact absurd (by rw [hvv]; rfl) hcond
          · rfl
        have hx : otp.is_expired now ttl = false := by
          cases hxx : otp.is_expired now ttl
          · rfl
          · exact absurd (by rw [hxx, hv]; rfl) hcond
        constructor
        · intro h
          injection h with h
          subst h
          exact ⟨hne, rfl, hv, hx⟩
        · rintro ⟨_, hsome, _, _⟩
          injection hsome with hsome
          subst hsome
          rfl

theorem registerValidate_error (store : List EmailOTP) (now ttl : Nat) (e tok : String)
    (hne : normEmail e ≠ "") :
    ∀ err, RegisterSerializer.validate store now ttl e tok = Except.error err →
      err = RegError.InvalidOrExpiredToken := by
  intro err h
  unfold RegisterSerializer.validate at h
  rw [if_neg hne] at h
  cases hlk : registerLookup store tok (normEmail e) with
  | none =>
    rw [hlk] at h
    injection h with h
    exact h.symm
  | some otp =>
    rw [hlk] at h
    dsimp only at h
    by_cases hcond : (!otp.is_verified || otp.is_expired now ttl) = true
    · rw [if_pos hcond] at h
      injection h with h
      exact h.symm
    · rw [if_neg hcond] at h
      exact absurd h (by simp)

theorem finalize_of_validate_error (store : List EmailOTP) (now ttl : Nat) (e tok : String)
    {err : RegError} (h : RegisterSerializer.validate store now ttl e tok = Except.error err) :
    finalizeRegistration store now ttl e tok = (store, Except.error err) := by
  unfold finalizeRegistration
  rw [h]

theorem finalize_of_validate_ok (store : List EmailOTP) (now ttl : Nat) (e tok : String)
    {r : EmailOTP} (h : RegisterSerializer.validate store now ttl e tok = Except.ok r) :
    finalizeRegistration store now ttl e tok
      = (store.filter (fun s => !(s.id == r.id)), Except.ok r) := by
  unfold finalizeRegistration
  rw [h]

/-- C7: `RegisterSerializer.validate` re-validates independently of any prior
VerifyOTP call: on a non-blank email it succeeds exactly when the most recent
record for `(token, purpose=REGISTRATION, email)` exists, is verified and is
not expired, and every failure carries the single error
`InvalidOrExpiredToken`. -/
theorem c7_finalize_revalidates (store : List EmailOTP) (now ttl : Nat) (e tok : String)
    (hne : normEmail e ≠ "") :
    (∀ r, RegisterSerializer.validate store now ttl e tok = Except.ok r ↔
        (registerLookup store tok (normEmail e) = some r ∧
          r.is_verified = true ∧ r.is_expired now ttl = false))
  ∧ (∀ err, RegisterSerializer.validate store now ttl e tok = Except.error err →
        err = RegError.InvalidOrExpiredToken) := by
  constructor
  · intro r
    rw [registerValidate_ok]
    constructor
    · rintro ⟨_, h⟩; exact h
    · intro h; exact ⟨hne, h⟩
  · exact registerValidate_error store now ttl e tok hne

/-- C7 witness: a verified, unexpired concrete record passes finalize
re-validation. -/
theorem c7_finalize_revalidates_witness :
    RegisterSerializer.validate [recVerified] 5 10 "a@x.com" "tok1" = Except.ok recVerified :=
  ((c7_finalize_revalidates [recVerified] 5 10 "a@x.com" "tok1" (by decide)).1 recVerified).mpr
    (by decide)

/-- C8: an OTP record is deleted exactly once, at successful registration
completion and never before: a failed finalize leaves the database unchanged,
VerifyOTP never deletes a record, and after a successful finalize the consumed
record is gone, so (tokens being unique) a second finalize with the same token
fails with `InvalidOrExpiredToken`. -/
theorem c8_consumed_exactly_once (store : List EmailOTP) (now ttl now2 : Nat) (e tok : String)
    (htok : ∀ r1 ∈ store, ∀ r2 ∈ store, r1.token = r2.token → r1.id = r2.id) :
    (∀ err, (finalizeRegistration store now ttl e tok).2 = Except.error err →
        (finalizeRegistration store now ttl e tok).1 = store)
  ∧ (∀ now3 c, ∀ r0 ∈ store, ∃ r1 ∈ (verifyOTP store now3 ttl e c).1, r1.id = r0.id)
  ∧ (∀ r, (finalizeRegistration store now ttl e tok).2 = Except.ok r →
        (∀ r1 ∈ (finalizeRegistration store now ttl e tok).1, r1.id ≠ r.id)
      ∧ (finalizeRegistration (finalizeRegistration store now ttl e tok).1 now2 ttl e tok).2
          = Except.error RegError.InvalidOrExpiredToken) := by
  refine ⟨?_, ?_, ?_⟩
  · intro err herr
    cases hv : RegisterSerializer.validate store now ttl e tok with
    | error err2 => rw [finalize_of_validate_error store now ttl e tok hv]
    | ok otp =>
      rw [finalize_of_validate_ok store now ttl e tok hv] at herr
      exact absurd herr (by simp)
  · intro now3 c r0 h0
    rcases verifyOTP_cases store now3 ttl e c with ⟨_, h2⟩ | ⟨r, _, hcase⟩
    · rw [h2]; exact ⟨r0, h0, rfl⟩
    · rcases hcase with ⟨_, h2⟩ | ⟨_, _, h2⟩ | ⟨_, _, _, h2⟩ | ⟨_, _, _, h2⟩
      · rw [h2]; exact ⟨r0, h0, rfl⟩
      · rw [h2]; exact ⟨r0, h0, rfl⟩
      · rw [h2]
        simp only [saveAttempts]
        refine ⟨_, List.mem_map_of_mem _ h0, ?_⟩
        by_cases hid : r0.id == r.id
        · rw [if_pos hid]
        · rw [if_neg hid]
      · rw [h2]
        simp only [markVerified]
        refine ⟨_, List.mem_map_of_mem _ h0, ?_⟩
        by_cases hid : r0.id == r.id
        · rw [if_pos hid]
        · rw [if_neg hid]
  · intro r hres
    have hv : RegisterSerializer.validate store now ttl e tok = Except.ok r := by
      cases hv2 : RegisterSerializer.validate store now ttl e tok with
      | error err =>
        rw [finalize_of_validate_error store now ttl e tok hv2] at hres
        exact absurd hres (by simp)
      | ok otp =>
        rw [finalize_of_validate_ok store now ttl e tok hv2] at hres
        injection hres with hres
        rw [hres]
    obtain ⟨hne, hlk, _, _⟩ := (registerValidate_ok store now ttl e tok r).mp hv
    have hst : (finalizeRegistration store now ttl e tok).1
        = store.filter (fun s => !(s.id == r.id)) := by
      rw [finalize_of_validate_ok store now ttl e tok hv]
    have hrmem : r ∈ store := by
      simp only [registerLookup] at hlk
      exact List.mem_of_mem_filter (mostRecent_mem hlk)
    have hrtok : r.token = tok := by
      simp only [registerLookup] at hlk
      have hp := List.of_mem_filter (mostRecent_mem hlk)
      simp only [Bool.and_eq_true, beq_iff_eq] at hp
      exact hp.1.1
    constructor
    · intro r1 h1
      rw [hst] at h1
      have h2 := (List.mem_filter.mp h1).2
      simpa using h2
    · have hlk2 : registerLookup ((finalizeRegistration store now ttl e tok).1) tok
          (normEmail e) = none := by
        rw [hst]
        simp only [registerLookup]
        have hfil : ((store.filter (fun s => !(s.id == r.id))).filter
            (fun r2 => r2.token == tok && r2.purpose == Purpose.registration &&
              iexact r2.email (normEmail e))) = [] := by
          rw [List.filter_eq_nil_iff]
          intro x hx hpx
          have hxs : x ∈ store := List.mem_of_mem_filter hx
          have hxid := List.of_mem_filter hx
          simp only [Bool.and_eq_true, beq_iff_eq] at hpx
          have hxtok : x.token = tok := hpx.1.1
          have hxr : x.id = r.id := htok x hxs r hrmem (hxtok.trans hrtok.symm)
          rw [hxr] at hxid
          simp at hxid
        rw [hfil]
        rfl
      have hv2 : RegisterSerializer.validate ((finalizeRegistration store now ttl e tok).1)
          now2 ttl e tok = Except.error RegError.InvalidOrExpiredToken := by
        unfold RegisterSerializer.validate
        rw [if_neg hne, hlk2]
      rw [finalize_of_validate_error _ now2 ttl e tok hv2]

/-- C8 witness: the concrete verified record is consumed by a successful
finalize, and the immediate second finalize with the same token fails. -/
theorem c8_consumed_exactly_once_witness :
    (∀ r1 ∈ (finalizeRegistration [recVerified] 5 10 "a@x.com" "tok1").1,
        r1.id ≠ recVerified.id)
  ∧ (finalizeRegistration (finalizeRegistration [recVerified] 5 10 "a@x.com" "tok1").1
        6 10 "a@x.com" "tok1").2 = Except.error RegError.InvalidOrExpiredToken :=
  (c8_consumed_exactly_once [recVerified] 5 10 6 "a@x.com" "tok1" (by decide)).2.2
    recVerified (by decide)

/-- C9: VerifyOTP's lookup selects a record matching `(email, REGISTRATION)`
whose `created_at` is maximal among the matches, and issuing a second OTP for
the same email (with a strictly later timestamp) produces a record that this
lookup prefers, while the older records remain stored. -/
theorem c9_most_recent_wins (store : List EmailOTP) (e : String) :
    (∀ r, verifyLookup store e = some r →
        ((iexact r.email e && r.purpose == Purpose.registration) = true ∧
          ∀ x ∈ store, (iexact x.email e && x.purpose == Purpose.registration) = true →
            x.created_at ≤ r.created_at))
  ∧ (∀ now code tok, (∀ x ∈ store, x.created_at < now) →
        verifyLookup (issueOTP store now e code tok).1 (normEmail e)
            = some (issuedRecord store now e code tok)
        ∧ ∀ x ∈ store, x ∈ (issueOTP store now e code tok).1) := by
  constructor
  · intro r hr
    simp only [verifyLookup] at hr
    refine ⟨(List.mem_filter.mp (mostRecent_mem hr)).2, ?_⟩
    intro x hx hpx
    exact mostRecent_max hr x (List.mem_filter.mpr ⟨hx, hpx⟩)
  · intro now code tok hlt
    constructor
    · simp only [issueOTP, verifyLookup, List.filter_append]
      have hmatch : (iexact (issuedRecord store now e code tok).email (normEmail e) &&
          (issuedRecord store now e code tok).purpose == Purpose.registration) = true := by
        simp [iexact, issuedRecord]
        rfl
      rw [List.filter_singleton, hmatch]
      exact mostRecent_append_newest (fun x hx => hlt x (List.mem_of_mem_filter hx))
    · intro x hx
      simp only [issueOTP]
      exact List.mem_append_left _ hx

/-- C9 witness: issuing a second OTP for the same email yields the record the
lookup now returns, while the first record is still stored. -/
theorem c9_most_recent_wins_witness :
    verifyLookup (issueOTP [recFresh] 7 "a@x.com" "654321" "tok2").1 (normEmail "a@x.com")
        = some (issuedRecord [recFresh] 7 "a@x.com" "654321" "tok2")
  ∧ ∀ x ∈ [recFresh], x ∈ (issueOTP [recFresh] 7 "a@x.com" "654321" "tok2").1 :=
  (c9_most_recent_wins [recFresh] "a@x.com").2 7 "654321" "tok2" (by decide)

/-- C10: the upcoming-session start-time validator accepts any start time at
least `now - 60` seconds — i.e. up to one minute in the past — and rejects
exactly the start times more than one minute in the past, with a message that
(inaccurately) says the start time must be in the future. -/
theorem c10_start_time_grace_window (now value : Int) :
    (UpcomingSessionSerializer.validate_start_time now value = Except.ok value ↔
      now - 60 ≤ value)
  ∧ (value < now - 60 →
      UpcomingSessionSerializer.validate_start_time now value
        = Except.error "Start time must be in the future.") := by
  unfold UpcomingSessionSerializer.validate_start_time
  constructor
  · constructor
    · intro hok
      by_cases h : value < now - 60
      · rw [if_pos h] at hok
        exact absurd hok (by simp)
      · omega
    · intro hle
      rw [if_neg (by omega)]
  · intro h
    rw [if_pos h]

/-- C10 witness: a start time exactly 60 seconds in the past is accepted; one
61 seconds in the past is rejected. -/
theorem c10_start_time_grace_window_witness :
    UpcomingSessionSerializer.validate_start_time 100 40 = Except.ok 40
  ∧ UpcomingSessionSerializer.validate_start_time 100 39
      = Except.error "Start time must be in the future." :=
  ⟨(c10_start_time_grace_window 100 40).1.mpr (by decide),
   (c10_start_time_grace_window 100 39).2 (by decide)⟩
